import Mathlib

/-!
Shallow embedding of the vk_parser request store
(`vk_parser/storages/parser_request.py`) and its domain models
(`vk_parser/generals/models/parser_request.py`).

Datetimes are modelled as `Nat` (a monotone clock), URLs as `String`.
The relational table behind the store is modelled as a list of rows
(`DB.rows`); the data-access layer's possible `DBAPIError` is modelled
by an explicit `dbFail : Bool` oracle passed to each operation (when it
is `true`, the driver raises `DBAPIError` during the call and no write
commits).  SQLAlchemy's `NoResultFound` / `MultipleResultsFound` —
which are *not* subclasses of `DBAPIError` — are modelled by the
`Outcome.raised` constructor, distinct from a normal return.
-/

namespace VkStore

/-- Request lifecycle statuses (`RequestStatus` in `vk_parser.generals.enums`;
that module is outside the excerpt, values fixed by the spec §3). -/
inductive RequestStatus
  | PENDING
  | PROCESSING
  | SUCCESSFUL
  | EMPTY
  | FAILED
  deriving DecidableEq

/-- Modelled from the spec: `ParserTypes` in `vk_parser.generals.enums` is
absent from the excerpt; §6 fixes the values at
`{VK_SIMPLE_DOWNLOAD, VK_DOWNLOAD_AND_PARSED_POSTS}`, in this enumeration
order (used by `stat`'s fan-out loop). -/
inductive ParserTypes
  | VK_SIMPLE_DOWNLOAD
  | VK_DOWNLOAD_AND_PARSED_POSTS
  deriving DecidableEq

/-- `SimpleVkInputData`: `{parser_type: VK_SIMPLE_DOWNLOAD, group_url, max_age}`.
The discriminator is carried by the variant tag of `InputData`. -/
structure SimpleVkInputData where
  group_url : String
  max_age : Int
  deriving DecidableEq

/-- `ParsePostsVkInputData`: adds `posted_up_to` to the simple shape. -/
structure ParsePostsVkInputData where
  group_url : String
  posted_up_to : Nat
  max_age : Int
  deriving DecidableEq

/-- The discriminated union `ParsePostsVkInputData | SimpleVkInputData`
(discriminated on `parser_type`). -/
inductive InputData
  | simple (d : SimpleVkInputData)
  | parsePosts (d : ParsePostsVkInputData)
  deriving DecidableEq

/-- The discriminator value carried by each variant. -/
def InputData.parser_type : InputData → ParserTypes
  | .simple _ => .VK_SIMPLE_DOWNLOAD
  | .parsePosts _ => .VK_DOWNLOAD_AND_PARSED_POSTS

/-- `UserStat`: one per-user aggregation entry of a result. -/
structure UserStat where
  vk_id : Int
  count : Int
  deriving DecidableEq

/-- `ResultData` (named `Result` at the storage import site):
`{message, user_stat}`. -/
structure ResultData where
  message : String
  user_stat : List UserStat
  deriving DecidableEq

/-- Modelled from the spec: one persisted row of the `ParserRequest` table
(`vk_parser/db/models/parser_request.py` is absent from the excerpt); columns
per §3 of the spec. -/
structure Row where
  id : Nat
  created_at : Nat
  updated_at : Nat
  status : RequestStatus
  input_data : InputData
  result_data : Option ResultData
  finished_at : Option Nat
  error_message : Option String
  deriving DecidableEq

/-- `DetailParserRequest`: full detail projection of a row
(pydantic `model_validate` with `from_attributes`). -/
structure DetailParserRequest where
  id : Nat
  created_at : Nat
  updated_at : Nat
  status : RequestStatus
  input_data : InputData
  result_data : Option ResultData
  finished_at : Option Nat
  error_message : Option String
  deriving DecidableEq

/-- `DetailParserRequest.parser_type`: pure projection of the input union's
discriminator. -/
def DetailParserRequest.parser_type (d : DetailParserRequest) : ParserTypes :=
  d.input_data.parser_type

/-- `ParserRequest` (summary shape): omits `input_data` / `result_data`. -/
structure ParserRequest where
  id : Nat
  created_at : Nat
  updated_at : Nat
  status : RequestStatus
  finished_at : Option Nat
  error_message : Option String
  deriving DecidableEq

/-- `DetailParserRequest.model_validate(row)`. -/
def toDetail (r : Row) : DetailParserRequest :=
  ⟨r.id, r.created_at, r.updated_at, r.status, r.input_data, r.result_data,
   r.finished_at, r.error_message⟩

/-- `ParserRequest.model_validate(row)`. -/
def toSummary (r : Row) : ParserRequest :=
  ⟨r.id, r.created_at, r.updated_at, r.status, r.finished_at, r.error_message⟩

/-- The persisted table plus the server-managed id sequence and clock. -/
structure DB where
  rows : List Row
  nextId : Nat
  now : Nat
  deriving DecidableEq

/-- A fresh database. -/
def DB.empty : DB := ⟨[], 1, 0⟩

/-- SQLAlchemy result-handling exceptions that are *not* `DBAPIError`
and hence escape the storage's `except DBAPIError` handlers. -/
inductive OrmError
  | noResultFound
  | multipleResultsFound
  deriving DecidableEq

/-- What a call delivers to its caller: a normal return or a propagated
exception. -/
inductive Outcome (α : Type)
  | ok (a : α)
  | raised (e : OrmError)
  deriving DecidableEq

/-- Modelled from the spec: the page shape `{items, total_count, page,
page_size}` returned by the pagination helper (§4.2); the helper itself
(`vk_parser/storages/base.py`) is absent from the excerpt. -/
structure PaginationResponse (α : Type) where
  items : List α
  total : Nat
  page : Nat
  page_size : Nat
  deriving DecidableEq

/-- Modelled from the spec: `PaginationMixin._paginate` (§4.2, absent from
the excerpt): total = count over the same predicate; items = the base
query's rows with `offset = (page - 1) * page_size`, `limit = page_size`,
each mapped through the requested model shape. -/
def paginate {α : Type} (rows : List Row) (page page_size : Nat)
    (f : Row → α) : PaginationResponse α :=
  ⟨((rows.drop ((page - 1) * page_size)).take page_size).map f,
   rows.length, page, page_size⟩

/-- `ParserRequestStorage.get_pagination`: unordered base query
`select(ParserRequestDb)`, summary shape. -/
def get_pagination (db : DB) (page page_size : Nat) :
    PaginationResponse ParserRequest :=
  paginate db.rows page page_size toSummary

/-- The ordering `ParserRequestDb.created_at.desc()`. -/
def createdDesc (a b : Row) : Prop := b.created_at ≤ a.created_at

instance : DecidableRel createdDesc := fun a b =>
  inferInstanceAs (Decidable (b.created_at ≤ a.created_at))

instance : IsTotal Row createdDesc :=
  ⟨fun a b => Nat.le_total b.created_at a.created_at⟩

instance : IsTrans Row createdDesc :=
  ⟨fun _ _ _ hab hbc => Nat.le_trans hbc hab⟩

/-- `ParserRequestStorage.admin_pagination`: base query ordered by
`created_at` descending, detail shape.  The SQL `ORDER BY` is denoted by a
sort of the table's rows under `createdDesc`. -/
def admin_pagination (db : DB) (page page_size : Nat) :
    PaginationResponse DetailParserRequest :=
  paginate (List.insertionSort createdDesc db.rows) page page_size toDetail

/-- `ParserRequestStorage.get_detail`: point lookup by id. -/
def get_detail (db : DB) (id_ : Nat) : Option DetailParserRequest :=
  ((db.rows.filter fun r => decide (r.id = id_)).head?).map toDetail

/-- `ParserRequestStorage.create`: `insert(...).values(input_data=...)
.returning(ParserRequestDb)`, commit; on `DBAPIError` logs and returns
`None`.  Server-side defaults (modelled from the spec, the db model being
absent): fresh `id`, `created_at = updated_at = now`, `status = PENDING`,
all optional columns null. -/
def create (db : DB) (dbFail : Bool) (input_data : InputData) :
    Option DetailParserRequest × DB :=
  if dbFail then (none, db)
  else
    let r : Row :=
      ⟨db.nextId, db.now, db.now, .PENDING, input_data, none, none, none⟩
    (some (toDetail r), ⟨db.rows ++ [r], db.nextId + 1, db.now⟩)

/-- The row-level effect of `update(...).values(status=status)` plus the
storage-managed `updated_at` bump (modelled from the spec §3, the db
model's `onupdate` being absent from the excerpt). -/
def bumpStatus (now : Nat) (s : RequestStatus) (r : Row) : Row :=
  { r with status := s, updated_at := now }

/-- `UPDATE ... WHERE id = id_` applied to the table: every matching row is
replaced by `f` of itself, with the `updated_at` clock at `db.now`. -/
def applyWhere (db : DB) (id_ : Nat) (f : Row → Row) : DB :=
  ⟨db.rows.map fun r => if r.id = id_ then f r else r, db.nextId, db.now⟩

/-- `ParserRequestStorage.update_status`: `update(...).where(id == id_)
.values(status=status).returning(ParserRequestDb)`, commit, then
`result.one()`.  The `except DBAPIError` handler returns `None`;
`result.one()`'s `NoResultFound` / `MultipleResultsFound` are *not*
`DBAPIError` and propagate (`Outcome.raised`).  The commit precedes
`.one()`, so the table mutation stands in every branch. -/
def update_status (db : DB) (dbFail : Bool) (id_ : Nat)
    (status : RequestStatus) : Outcome (Option DetailParserRequest) × DB :=
  if dbFail then (.ok none, db)
  else
    (match (db.rows.filter fun r => decide (r.id = id_)).map
        (bumpStatus db.now status) with
      | [r] => .ok (some (toDetail r))
      | [] => .raised .noResultFound
      | _ :: _ :: _ => .raised .multipleResultsFound,
     applyWhere db id_ (bumpStatus db.now status))

/-- `ParserRequestStorage.save_error`: sets `finished_at`, `status=FAILED`,
`error_message`; swallows `DBAPIError` (logs only).  Pre-existing
`result_data` is *not* cleared by the UPDATE. -/
def save_error (db : DB) (dbFail : Bool) (id_ : Nat) (finished_at : Nat)
    (error_message : String) : DB :=
  if dbFail then db
  else applyWhere db id_ fun r =>
    { r with finished_at := some finished_at, status := .FAILED,
             error_message := some error_message, updated_at := db.now }

/-- `ParserRequestStorage.save_empty_result`: sets `finished_at`,
`status=EMPTY`, `result_data = {message, user_stat: []}`; swallows
`DBAPIError`.  Pre-existing `error_message` is *not* cleared. -/
def save_empty_result (db : DB) (dbFail : Bool) (id_ : Nat)
    (finished_at : Nat) (message : String) : DB :=
  if dbFail then db
  else applyWhere db id_ fun r =>
    { r with finished_at := some finished_at, status := .EMPTY,
             result_data := some ⟨message, []⟩, updated_at := db.now }

/-- `ParserRequestStorage.save_successful_result`: sets `finished_at`,
`status=SUCCESSFUL`, `result_data = result.model_dump()`; swallows
`DBAPIError`. -/
def save_successful_result (db : DB) (dbFail : Bool) (id_ : Nat)
    (result : ResultData) (finished_at : Nat) : DB :=
  if dbFail then db
  else applyWhere db id_ fun r =>
    { r with finished_at := some finished_at, status := .SUCCESSFUL,
             result_data := some result, updated_at := db.now }

/-- Denotation of `SELECT status, count(*) ... GROUP BY status`: one pair
per distinct status value among `rows`, with its multiplicity.  (The SQL
engine guarantees no order; any enumeration containing each present status
exactly once is a faithful denotation.) -/
def groupCountByStatus (rows : List Row) : List (RequestStatus × Nat) :=
  let sts := rows.map (·.status)
  sts.dedup.map fun s => (s, sts.count s)

/-- `ParserRequestStorage.stat_by_type`: rows whose
`input_data["parser_type"]` equals the given type, grouped by status with
counts; a data-access failure raises out of the coroutine
(`Except.error`). -/
def stat_by_type (db : DB) (dbFail : Bool) (pt : ParserTypes) :
    Except Unit (ParserTypes × List (RequestStatus × Nat)) :=
  if dbFail then .error ()
  else .ok (pt, groupCountByStatus
    (db.rows.filter fun r => decide (r.input_data.parser_type = pt)))

/-- `for pt in ParserTypes`: the enumeration order of the parser-type
enum (modelled from the spec, the enum module being absent). -/
def allParserTypes : List ParserTypes :=
  [.VK_SIMPLE_DOWNLOAD, .VK_DOWNLOAD_AND_PARSED_POSTS]

/-- `asyncio.gather` over the per-type sub-queries: collects every
sub-result in task order, propagating a failure of any sub-query. -/
def gatherStat (db : DB) (fail : ParserTypes → Bool) :
    List ParserTypes →
      Except Unit (List (ParserTypes × List (RequestStatus × Nat)))
  | [] => .ok []
  | pt :: rest =>
    match stat_by_type db (fail pt) pt with
    | .error e => .error e
    | .ok r =>
      match gatherStat db fail rest with
      | .error e => .error e
      | .ok rs => .ok (r :: rs)

/-- `ParserRequestStorage.stat`: fans out one `stat_by_type` per parser
type, `gather`s them (a failure propagates), and concatenates the
per-type `(type, status, count)` triples in enum order. -/
def stat (db : DB) (fail : ParserTypes → Bool) :
    Except Unit (List (ParserTypes × RequestStatus × Nat)) :=
  match gatherStat db fail allParserTypes with
  | .error e => .error e
  | .ok results =>
    .ok (results.flatMap fun pr => pr.2.map fun sc => (pr.1, sc.1, sc.2))

/-! ### Operation traces over the store

A syntax of store write operations, used to quantify over every state the
table can reach through the storage layer (all with the data-access layer
healthy, `dbFail = false`). -/

/-- One store write call. -/
inductive Op
  | createOp (input : InputData)
  | updateStatusOp (id : Nat) (s : RequestStatus)
  | saveErrorOp (id : Nat) (t : Nat) (msg : String)
  | saveEmptyOp (id : Nat) (t : Nat) (msg : String)
  | saveSuccessOp (id : Nat) (res : ResultData) (t : Nat)
  deriving DecidableEq

/-- The state transition a store call makes on the table. -/
def applyOp (db : DB) : Op → DB
  | .createOp i => (create db false i).2
  | .updateStatusOp id s => (update_status db false id s).2
  | .saveErrorOp id t m => save_error db false id t m
  | .saveEmptyOp id t m => save_empty_result db false id t m
  | .saveSuccessOp id r t => save_successful_result db false id r t

/-- Run a sequence of store calls. -/
def runOps (db : DB) (ops : List Op) : DB := ops.foldl applyOp db

/-- A status from which further transitions are expected. -/
def nonTerminal (s : RequestStatus) : Prop := s = .PENDING ∨ s = .PROCESSING

instance (s : RequestStatus) : Decidable (nonTerminal s) :=
  inferInstanceAs (Decidable (s = .PENDING ∨ s = .PROCESSING))

/-- The per-row shape invariant claimed by the spec (§3):
`finished_at` null iff non-terminal; SUCCESSFUL/EMPTY carry a result and
no error; FAILED carries an error and no result. -/
def RowInv (r : Row) : Prop :=
  (r.finished_at = none ↔ nonTerminal r.status) ∧
  ((r.status = .SUCCESSFUL ∨ r.status = .EMPTY) →
    r.result_data ≠ none ∧ r.error_message = none) ∧
  (r.status = .FAILED → r.error_message ≠ none ∧ r.result_data = none)

instance (r : Row) : Decidable (RowInv r) :=
  inferInstanceAs (Decidable (_ ∧ _ ∧ _))

/-- Strengthening of `RowInv` used for the induction: a non-terminal row
carries neither a result nor an error yet. -/
def RowInvS (r : Row) : Prop :=
  RowInv r ∧
  (nonTerminal r.status → r.result_data = none ∧ r.error_message = none)

instance (r : Row) : Decidable (RowInvS r) :=
  inferInstanceAs (Decidable (_ ∧ _))

/-- The lifecycle discipline of the spec (§3): `update_status` only moves
between non-terminal statuses, and each terminal save targets a row that
is still non-terminal (so at most one terminal write per row). -/
def okOp (db : DB) : Op → Prop
  | .createOp _ => True
  | .updateStatusOp id s =>
      nonTerminal s ∧ ∀ r ∈ db.rows, r.id = id → nonTerminal r.status
  | .saveErrorOp id _ _ => ∀ r ∈ db.rows, r.id = id → nonTerminal r.status
  | .saveEmptyOp id _ _ => ∀ r ∈ db.rows, r.id = id → nonTerminal r.status
  | .saveSuccessOp id _ _ => ∀ r ∈ db.rows, r.id = id → nonTerminal r.status

instance (db : DB) (op : Op) : Decidable (okOp db op) :=
  match op with
  | .createOp _ => .isTrue trivial
  | .updateStatusOp _ _ => inferInstanceAs (Decidable (_ ∧ _))
  | .saveErrorOp _ _ _ => inferInstanceAs (Decidable (∀ r ∈ db.rows, _))
  | .saveEmptyOp _ _ _ => inferInstanceAs (Decidable (∀ r ∈ db.rows, _))
  | .saveSuccessOp _ _ _ => inferInstanceAs (Decidable (∀ r ∈ db.rows, _))

/-- Table states reachable from a fresh database through store calls that
respect the lifecycle discipline. -/
inductive Reachable : DB → Prop
  | init : Reachable DB.empty
  | step (db : DB) (op : Op) :
      Reachable db → okOp db op → Reachable (applyOp db op)

/-! ### Helper lemmas -/

/-- A `WHERE id = id_` update touching no existing row leaves the table
unchanged. -/
lemma applyWhere_noop (db : DB) (id_ : Nat) (g : Row → Row)
    (h : ∀ r ∈ db.rows, r.id ≠ id_) : applyWhere db id_ g = db := by
  unfold applyWhere
  have hc : ∀ r ∈ db.rows, (if r.id = id_ then g r else r) = id r := by
    intro r hr
    simp [h r hr]
  rw [List.map_congr_left hc, List.map_id]

/-! ### Concrete fixtures (used by witnesses and counterexamples) -/

/-- A SimpleDownload payload (spec §8 scenario). -/
def inputSimple : InputData := .simple ⟨"https://vk.com/example", 10⟩

/-- A DownloadAndParsePosts payload. -/
def inputPosts : InputData := .parsePosts ⟨"https://vk.com/other", 99, 3⟩

/-- A pending row with id 1, created at time 0. -/
def rowP : Row := ⟨1, 0, 0, .PENDING, inputSimple, none, none, none⟩

/-- A pending row with id 2, created at time 5. -/
def rowQ : Row := ⟨2, 5, 5, .PENDING, inputPosts, none, none, none⟩

/-- A two-row table at clock 7. -/
def dbTwo : DB := ⟨[rowP, rowQ], 3, 7⟩

/-! ### Claims -/

/-- C4: `create(inputData)` inserts exactly one new row carrying the given
payload, with default status PENDING, null `finished_at` (and null
`result_data` / `error_message`), server-assigned `id` and `created_at`,
and returns that row's full detail projection; on a data-access failure it
returns absent and leaves the table unchanged. -/
theorem create_spec (db : DB) (input : InputData) :
    create db true input = (none, db) ∧
    ∃ r : Row,
      (create db false input).2.rows = db.rows ++ [r] ∧
      (create db false input).2.nextId = db.nextId + 1 ∧
      r.input_data = input ∧
      r.status = .PENDING ∧
      r.finished_at = none ∧
      r.result_data = none ∧
      r.error_message = none ∧
      r.id = db.nextId ∧
      r.created_at = db.now ∧
      (create db false input).1 = some (toDetail r) :=
  ⟨rfl, ⟨db.nextId, db.now, db.now, .PENDING, input, none, none, none⟩,
   rfl, rfl, rfl, rfl, rfl, rfl, rfl, rfl, rfl, rfl⟩

/-- C6: `save_empty_result(id, finishedAt, message)` sets the matching
row's status to EMPTY, its `finished_at` to the given timestamp and its
`result_data` to `{message, user_stat: []}`; a data-access failure is
swallowed (the call is total and, failing, writes nothing). -/
theorem save_empty_result_spec (db : DB) (id_ t : Nat) (msg : String) :
    save_empty_result db true id_ t msg = db ∧
    ∀ r ∈ (save_empty_result db false id_ t msg).rows, r.id = id_ →
      r.status = .EMPTY ∧ r.finished_at = some t ∧
      r.result_data = some ⟨msg, []⟩ := by
  refine ⟨rfl, ?_⟩
  intro r hr hid
  simp [save_empty_result, applyWhere, List.mem_map] at hr
  obtain ⟨a, ha, rfl⟩ := hr
  by_cases h : a.id = id_
  · simp [h]
  · rw [if_neg h] at hid
    exact absurd hid h

/-- Witness for C6 on a concrete table. -/
theorem save_empty_result_spec_witness :
    (Row.mk 1 0 7 .EMPTY inputSimple (some ⟨"none found", []⟩) (some 9)
      none).status = .EMPTY ∧
    (Row.mk 1 0 7 .EMPTY inputSimple (some ⟨"none found", []⟩) (some 9)
      none).finished_at = some 9 ∧
    (Row.mk 1 0 7 .EMPTY inputSimple (some ⟨"none found", []⟩) (some 9)
      none).result_data = some ⟨"none found", []⟩ :=
  (save_empty_result_spec dbTwo 1 9 "none found").2
    ⟨1, 0, 7, .EMPTY, inputSimple, some ⟨"none found", []⟩, some 9, none⟩
    (by decide) (by decide)

/-- C7: `parser_type` is a pure projection of the input union's
discriminator, and the detail record returned by `create` reads back the
discriminator supplied at creation, for either variant. -/
theorem parser_type_projection (d : DetailParserRequest) (db : DB)
    (input : InputData) :
    d.parser_type = d.input_data.parser_type ∧
    ((create db false input).1).map DetailParserRequest.parser_type
      = some input.parser_type :=
  ⟨rfl, rfl⟩

/-- C9: on an id matching no row, each terminal-save operation completes
as a silent no-op, leaving every row (indeed the whole table state)
unchanged, whether or not the driver fails. -/
theorem terminal_saves_noop (db : DB) (f : Bool) (id_ t : Nat)
    (msg : String) (res : ResultData)
    (h : ∀ r ∈ db.rows, r.id ≠ id_) :
    save_error db f id_ t msg = db ∧
    save_empty_result db f id_ t msg = db ∧
    save_successful_result db f id_ res t = db := by
  cases f
  · exact ⟨applyWhere_noop db id_ _ h, applyWhere_noop db id_ _ h,
      applyWhere_noop db id_ _ h⟩
  · exact ⟨rfl, rfl, rfl⟩

/-- Witness for C9: id 99 matches no row of the two-row table. -/
theorem terminal_saves_noop_witness :
    save_error dbTwo false 99 3 "boom" = dbTwo ∧
    save_empty_result dbTwo false 99 3 "boom" = dbTwo ∧
    save_successful_result dbTwo false 99 ⟨"ok", []⟩ 3 = dbTwo :=
  terminal_saves_noop dbTwo false 99 3 "boom" ⟨"ok", []⟩ (by decide)

/-- C10: a successful `update_status` changes only the matched row's
`status` (plus the storage-managed `updated_at`); its identity, payload,
result, error and timestamps of creation/finish — and every other row —
are unchanged. -/
theorem update_status_frame (db : DB) (dbFail : Bool) (id_ : Nat)
    (s : RequestStatus) (d : DetailParserRequest)
    (h : (update_status db dbFail id_ s).1 = .ok (some d)) :
    (update_status db dbFail id_ s).2.rows.length = db.rows.length ∧
    (update_status db dbFail id_ s).2.nextId = db.nextId ∧
    ∀ (i : Nat) (hi : i < db.rows.length)
      (hi2 : i < (update_status db dbFail id_ s).2.rows.length),
      (((update_status db dbFail id_ s).2.rows.get ⟨i, hi2⟩).id
          = (db.rows.get ⟨i, hi⟩).id) ∧
      (((update_status db dbFail id_ s).2.rows.get ⟨i, hi2⟩).created_at
          = (db.rows.get ⟨i, hi⟩).created_at) ∧
      (((update_status db dbFail id_ s).2.rows.get ⟨i, hi2⟩).input_data
          = (db.rows.get ⟨i, hi⟩).input_data) ∧
      (((update_status db dbFail id_ s).2.rows.get ⟨i, hi2⟩).result_data
          = (db.rows.get ⟨i, hi⟩).result_data) ∧
      (((update_status db dbFail id_ s).2.rows.get ⟨i, hi2⟩).finished_at
          = (db.rows.get ⟨i, hi⟩).finished_at) ∧
      (((update_status db dbFail id_ s).2.rows.get ⟨i, hi2⟩).error_message
          = (db.rows.get ⟨i, hi⟩).error_message) ∧
      ((db.rows.get ⟨i, hi⟩).id = id_ →
        ((update_status db dbFail id_ s).2.rows.get ⟨i, hi2⟩).status = s ∧
        ((update_status db dbFail id_ s).2.rows.get ⟨i, hi2⟩).updated_at
          = db.now) ∧
      ((db.rows.get ⟨i, hi⟩).id ≠ id_ →
        (update_status db dbFail id_ s).2.rows.get ⟨i, hi2⟩
          = db.rows.get ⟨i, hi⟩) := by
  cases dbFail
  · refine ⟨by simp [update_status, applyWhere], rfl, ?_⟩
    intro i hi hi2
    have hget : (update_status db false id_ s).2.rows.get ⟨i, hi2⟩
        = (if (db.rows.get ⟨i, hi⟩).id = id_
           then bumpStatus db.now s (db.rows.get ⟨i, hi⟩)
           else db.rows.get ⟨i, hi⟩) := by
      simp [update_status, applyWhere, List.get_eq_getElem, List.getElem_map]
    simp only [List.get_eq_getElem] at hget
    by_cases hid : (db.rows.get ⟨i, hi⟩).id = id_ <;>
      simp only [List.get_eq_getElem] at hid <;>
      simp [hget, hid, bumpStatus]
  · simp [update_status] at h

/-- Witness for C10 on a concrete table. -/
theorem update_status_frame_witness :
    (update_status dbTwo false 1 .PROCESSING).2.rows.length
      = dbTwo.rows.length ∧
    (update_status dbTwo false 1 .PROCESSING).2.nextId = dbTwo.nextId :=
  ⟨(update_status_frame dbTwo false 1 .PROCESSING
      ⟨1, 0, 7, .PROCESSING, inputSimple, none, none, none⟩ (by decide)).1,
   (update_status_frame dbTwo false 1 .PROCESSING
      ⟨1, 0, 7, .PROCESSING, inputSimple, none, none, none⟩ (by decide)).2.1⟩

/-- In a table with pairwise-distinct ids, the `WHERE id = id_` filter
returns exactly the one matching row. -/
lemma filter_id_eq_singleton {l : List Row} {id_ : Nat}
    (hnd : (l.map (·.id)).Nodup) {r : Row} (hr : r ∈ l)
    (hid : r.id = id_) :
    (l.filter fun x => decide (x.id = id_)) = [r] := by
  induction l with
  | nil => cases hr
  | cons a l ih =>
    rw [List.map_cons, List.nodup_cons] at hnd
    rcases List.mem_cons.mp hr with heq | hrl
    · subst heq
      rw [List.filter_cons_of_pos (by simpa using hid)]
      have hnil : (l.filter fun x => decide (x.id = id_)) = [] := by
        rw [List.filter_eq_nil_iff]
        intro x hx
        simp only [decide_eq_true_eq]
        intro hxid
        have hx2 : x.id ∈ l.map (·.id) := List.mem_map_of_mem (·.id) hx
        rw [hxid, ← hid] at hx2
        exact hnd.1 hx2
      rw [hnil]
    · have ha : ¬(a.id = id_) := by
        intro haid
        have hr2 : r.id ∈ l.map (·.id) := List.mem_map_of_mem (·.id) hrl
        rw [hid, ← haid] at hr2
        exact hnd.1 hr2
      rw [List.filter_cons_of_neg (by simpa using ha)]
      exact ih hnd.2 hrl

/-- C1 counterexample: on an id matching no row (and no driver failure),
`update_status` does not return absent — `result.one()` raises
`NoResultFound`, which the `except DBAPIError` handler does not catch, so
the exception propagates to the caller. -/
theorem update_status_no_row_raises :
    (update_status DB.empty false 1 .PROCESSING).1
        = .raised .noResultFound ∧
    (update_status DB.empty false 1 .PROCESSING).1 ≠ .ok none := by
  exact ⟨rfl, by decide⟩

/-- C1 amended: over tables with distinct ids, `update_status` returns the
updated row's full detail projection when the row exists and the write
succeeds, returns absent on a data-access (`DBAPIError`) failure, and —
when no row matches — raises `NoResultFound` to the caller instead of
returning absent. -/
theorem update_status_behavior (db : DB) (id_ : Nat) (s : RequestStatus)
    (hnd : (db.rows.map (·.id)).Nodup) :
    (update_status db true id_ s).1 = .ok none ∧
    (∀ r ∈ db.rows, r.id = id_ →
      (update_status db false id_ s).1
        = .ok (some (toDetail (bumpStatus db.now s r)))) ∧
    ((∀ r ∈ db.rows, r.id ≠ id_) →
      (update_status db false id_ s).1 = .raised .noResultFound) := by
  refine ⟨rfl, ?_, ?_⟩
  · intro r hr hid
    have hfilter := filter_id_eq_singleton hnd hr hid
    simp [update_status, hfilter]
  · intro h
    have hfilter : (db.rows.filter fun x => decide (x.id = id_)) = [] := by
      rw [List.filter_eq_nil_iff]
      intro x hx
      simpa using h x hx
    simp [update_status, hfilter]

/-- Witness for C1 (amended) on a concrete table: a hit, a driver
failure, and a miss. -/
theorem update_status_behavior_witness :
    (update_status dbTwo true 1 .PROCESSING).1 = .ok none ∧
    (update_status dbTwo false 1 .PROCESSING).1
      = .ok (some (toDetail (bumpStatus 7 .PROCESSING rowP))) ∧
    (update_status dbTwo false 99 .PROCESSING).1
      = .raised .noResultFound :=
  ⟨(update_status_behavior dbTwo 1 .PROCESSING (by decide)).1,
   (update_status_behavior dbTwo 1 .PROCESSING (by decide)).2.1 rowP
     (by decide) (by decide),
   (update_status_behavior dbTwo 99 .PROCESSING (by decide)).2.2
     (by decide)⟩

/-- One lifecycle-respecting store call preserves the strengthened per-row
invariant. -/
lemma rowInvS_applyOp (db : DB) (op : Op)
    (hok : okOp db op) (hinv : ∀ r ∈ db.rows, RowInvS r) :
    ∀ r ∈ (applyOp db op).rows, RowInvS r := by
  cases op with
  | createOp i =>
    intro r hr
    simp [applyOp, create] at hr
    rcases hr with hr | heq
    · exact hinv r hr
    · subst heq
      simp [RowInvS, RowInv, nonTerminal]
  | updateStatusOp id s =>
    obtain ⟨hs, htgt⟩ := hok
    intro r hr
    simp [applyOp, update_status, applyWhere] at hr
    obtain ⟨a, ha, heq⟩ := hr
    subst heq
    by_cases hid : a.id = id
    · have hnt := htgt a ha hid
      obtain ⟨⟨hfin, _, _⟩, hnone⟩ := hinv a ha
      obtain ⟨hres, herr⟩ := hnone hnt
      have hfa : a.finished_at = none := hfin.mpr hnt
      rw [if_pos hid]
      rcases hs with heq2 | heq2 <;> subst heq2 <;>
        simp [RowInvS, RowInv, nonTerminal, bumpStatus, hfa, hres, herr]
    · rw [if_neg hid]
      exact hinv a ha
  | saveErrorOp id t m =>
    intro r hr
    simp [applyOp, save_error, applyWhere] at hr
    obtain ⟨a, ha, heq⟩ := hr
    subst heq
    by_cases hid : a.id = id
    · have hnt := hok a ha hid
      obtain ⟨_, hnone⟩ := hinv a ha
      obtain ⟨hres, herr⟩ := hnone hnt
      rw [if_pos hid]
      simp [RowInvS, RowInv, nonTerminal, hres, herr]
    · rw [if_neg hid]
      exact hinv a ha
  | saveEmptyOp id t m =>
    intro r hr
    simp [applyOp, save_empty_result, applyWhere] at hr
    obtain ⟨a, ha, heq⟩ := hr
    subst heq
    by_cases hid : a.id = id
    · have hnt := hok a ha hid
      obtain ⟨_, hnone⟩ := hinv a ha
      obtain ⟨hres, herr⟩ := hnone hnt
      rw [if_pos hid]
      simp [RowInvS, RowInv, nonTerminal, hres, herr]
    · rw [if_neg hid]
      exact hinv a ha
  | saveSuccessOp id res t =>
    intro r hr
    simp [applyOp, save_successful_result, applyWhere] at hr
    obtain ⟨a, ha, heq⟩ := hr
    subst heq
    by_cases hid : a.id = id
    · have hnt := hok a ha hid
      obtain ⟨_, hnone⟩ := hinv a ha
      obtain ⟨hres, herr⟩ := hnone hnt
      rw [if_pos hid]
      simp [RowInvS, RowInv, nonTerminal, hres, herr]
    · rw [if_neg hid]
      exact hinv a ha

/-- C2 counterexample: the store itself never checks the current status,
and the terminal UPDATEs do not clear the opposite field; after
`create; save_empty_result; save_error` on the same id, the row is FAILED
yet still carries the `result_data` written by the empty save. -/
theorem terminal_invariant_cex :
    ∃ r ∈ (runOps DB.empty
        [.createOp inputSimple, .saveEmptyOp 1 5 "no users",
         .saveErrorOp 1 6 "boom"]).rows,
      r.status = .FAILED ∧ r.result_data ≠ none := by decide

/-- C2 amended: in every state reachable through store calls that respect
the spec's lifecycle (`update_status` only moves between non-terminal
statuses, and each terminal save targets a still non-terminal row), every
row satisfies the shape invariant: `finished_at` null iff non-terminal;
SUCCESSFUL/EMPTY rows carry a result and no error; FAILED rows carry an
error and no result. -/
theorem reachable_row_invariant (db : DB) (h : Reachable db) :
    ∀ r ∈ db.rows, RowInv r := by
  have hs : ∀ r ∈ db.rows, RowInvS r := by
    induction h with
    | init =>
      intro r hr
      simp [DB.empty] at hr
    | step db op hre hok ih => exact rowInvS_applyOp db op hok ih
  exact fun r hr => (hs r hr).1

/-- Witness for C2 (amended): the invariant at a concrete reachable state
`create; update_status(1, PROCESSING)`. -/
theorem reachable_row_invariant_witness :
    RowInv ⟨1, 0, 0, .PROCESSING, inputSimple, none, none, none⟩ :=
  reachable_row_invariant
    (applyOp (applyOp DB.empty (.createOp inputSimple))
      (.updateStatusOp 1 .PROCESSING))
    (Reachable.step (applyOp DB.empty (.createOp inputSimple))
      (.updateStatusOp 1 .PROCESSING)
      (Reachable.step DB.empty (.createOp inputSimple)
        Reachable.init (by decide))
      (by decide))
    ⟨1, 0, 0, .PROCESSING, inputSimple, none, none, none⟩ (by decide)

/-- C5: the items of any `admin_pagination` page are non-increasing in
`created_at` across consecutive positions (the base query orders by
`created_at` descending, and the page is a contiguous slice of it). -/
theorem admin_pagination_ordered (db : DB) (page page_size i : Nat)
    (h : i + 1 < (admin_pagination db page page_size).items.length) :
    ((admin_pagination db page page_size).items.get ⟨i + 1, h⟩).created_at
      ≤ ((admin_pagination db page page_size).items.get
          ⟨i, Nat.lt_of_succ_lt h⟩).created_at := by
  have hsorted : List.Pairwise createdDesc
      (List.insertionSort createdDesc db.rows) :=
    List.sorted_insertionSort createdDesc db.rows
  have hsub : List.Sublist
      (((List.insertionSort createdDesc db.rows).drop
        ((page - 1) * page_size)).take page_size)
      (List.insertionSort createdDesc db.rows) :=
    (List.take_sublist _ _).trans (List.drop_sublist _ _)
  have hitems : (admin_pagination db page page_size).items.Pairwise
      fun a b => b.created_at ≤ a.created_at := by
    unfold admin_pagination paginate
    rw [List.pairwise_map]
    exact List.Pairwise.sublist hsub hsorted
  exact List.pairwise_iff_get.mp hitems
    ⟨i, Nat.lt_of_succ_lt h⟩ ⟨i + 1, h⟩ (Nat.lt_succ_self i)

/-- Witness for C5 on a concrete two-row table (insertion order is by
ascending `created_at`, so the page reverses it). -/
theorem admin_pagination_ordered_witness :
    ((admin_pagination dbTwo 1 10).items.get ⟨1, by decide⟩).created_at
      ≤ ((admin_pagination dbTwo 1 10).items.get ⟨0, by decide⟩).created_at :=
  admin_pagination_ordered dbTwo 1 10 0 (by decide)

/-- Chunking a list into `k`-sized windows by `offset = i * k`,
`limit = k` and concatenating the first `n` windows yields the first
`n * k` elements. -/
lemma flatten_chunks {α : Type} (k : Nat) :
    ∀ (n : Nat) (l : List α),
      ((List.range n).map fun i => (l.drop (i * k)).take k).flatten
        = l.take (n * k) := by
  intro n
  induction n with
  | zero => intro l; simp
  | succ n ih =>
    intro l
    rw [List.range_succ, List.map_append, List.flatten_append, ih]
    simp only [List.map_cons, List.map_nil, List.flatten_cons,
      List.flatten_nil, List.append_nil]
    rw [Nat.succ_mul, List.take_add]

/-- `N ≤ ceil(N / k) * k` for `k ≥ 1` (with `ceil(N / k) = (N + k - 1) / k`
in natural division). -/
lemma length_le_ceil_mul (N k : Nat) (hk : 1 ≤ k) :
    N ≤ ((N + k - 1) / k) * k := by
  by_contra hcon
  push_neg at hcon
  have h1 : ((N + k - 1) / k + 1) * k ≤ N + k - 1 := by
    rw [Nat.succ_mul]
    omega
  have h2 : (N + k - 1) / k + 1 ≤ (N + k - 1) / k :=
    (Nat.le_div_iff_mul_le hk).mpr h1
  omega

/-- C8: page `p` of `get_pagination` is the window at
`offset = (p - 1) * k`, `limit = k` of the base query's rows (same
predicate and ordering), and concatenating pages `1 .. ceil(N / k)`
reproduces exactly the `N` rows — no duplicates, no omissions. -/
theorem get_pagination_complete (db : DB) (k : Nat) (hk : 1 ≤ k) :
    (∀ p : Nat, (get_pagination db p k).items
      = ((db.rows.map toSummary).drop ((p - 1) * k)).take k) ∧
    ((List.range ((db.rows.length + k - 1) / k)).map
        fun i => (get_pagination db (i + 1) k).items).flatten
      = db.rows.map toSummary := by
  have hitems : ∀ (p : Nat), (get_pagination db p k).items
      = ((db.rows.map toSummary).drop ((p - 1) * k)).take k := by
    intro p
    simp [get_pagination, paginate]
  refine ⟨hitems, ?_⟩
  have hcongr : ((List.range ((db.rows.length + k - 1) / k)).map
        fun i => (get_pagination db (i + 1) k).items)
      = (List.range ((db.rows.length + k - 1) / k)).map
        fun i => ((db.rows.map toSummary).drop (i * k)).take k := by
    apply List.map_congr_left
    intro i _
    rw [hitems (i + 1)]
    simp
  rw [hcongr, flatten_chunks]
  apply List.take_of_length_le
  rw [List.length_map]
  exact length_le_ceil_mul db.rows.length k hk

/-- Witness for C8: the two-row table with page size 1 splits into two
singleton pages whose concatenation is the full listing. -/
theorem get_pagination_complete_witness :
    (get_pagination dbTwo 2 1).items
      = ((dbTwo.rows.map toSummary).drop 1).take 1 ∧
    ((List.range ((dbTwo.rows.length + 1 - 1) / 1)).map
        fun i => (get_pagination dbTwo (i + 1) 1).items).flatten
      = dbTwo.rows.map toSummary :=
  ⟨(get_pagination_complete dbTwo 1 (by decide)).1 2,
   (get_pagination_complete dbTwo 1 (by decide)).2⟩

/-- The `(type, status, count)` triples `stat` contributes for one parser
type: `stat_by_type`'s grouped counts, tagged with the type. -/
def typeTriples (db : DB) (pt : ParserTypes) :
    List (ParserTypes × RequestStatus × Nat) :=
  (groupCountByStatus
    (db.rows.filter fun r => decide (r.input_data.parser_type = pt))).map
    fun sc => (pt, sc.1, sc.2)

/-- With every sub-query healthy, `stat` returns the per-type triples
concatenated in the enumeration order of the parser types. -/
lemma stat_eq_ok (db : DB) :
    stat db (fun _ => false)
      = .ok (typeTriples db .VK_SIMPLE_DOWNLOAD
          ++ typeTriples db .VK_DOWNLOAD_AND_PARSED_POSTS) := by
  simp [stat, gatherStat, allParserTypes, stat_by_type, typeTriples,
    groupCountByStatus]

/-- A failing sub-query makes the whole `stat` call fail. -/
lemma stat_error (db : DB) (fail : ParserTypes → Bool)
    (h : ∃ q, fail q = true) : stat db fail = .error () := by
  obtain ⟨q, hq⟩ := h
  have hg : gatherStat db fail allParserTypes = .error () := by
    cases hf1 : fail .VK_SIMPLE_DOWNLOAD
    · cases hf2 : fail .VK_DOWNLOAD_AND_PARSED_POSTS
      · cases q
        · rw [hf1] at hq; cases hq
        · rw [hf2] at hq; cases hq
      · simp [gatherStat, allParserTypes, stat_by_type, hf1, hf2]
    · simp [gatherStat, allParserTypes, stat_by_type, hf1]
  simp [stat, hg]

/-- Every triple contributed for a type is tagged with that type. -/
lemma typeTriples_fst (db : DB) (pt : ParserTypes) :
    ∀ t ∈ typeTriples db pt, t.1 = pt := by
  intro t ht
  unfold typeTriples at ht
  rw [List.mem_map] at ht
  obtain ⟨sc, _, heq⟩ := ht
  rw [← heq]

/-- A type's triples contain exactly one entry for a status with at least
one matching row, and none for a status with no matching row. -/
lemma typeTriples_filter_status (db : DB) (pt : ParserTypes)
    (s : RequestStatus) :
    ((typeTriples db pt).filter fun t => decide (t.2.1 = s)).length
      = if ∃ r ∈ db.rows, r.input_data.parser_type = pt ∧ r.status = s
        then 1 else 0 := by
  unfold typeTriples groupCountByStatus
  rw [List.map_map, ← List.countP_eq_length_filter, List.countP_map]
  have hcount : List.countP
      ((fun t : ParserTypes × RequestStatus × Nat => decide (t.2.1 = s)) ∘
        ((fun sc : RequestStatus × Nat => (pt, sc.1, sc.2)) ∘
          fun st =>
            (st, ((db.rows.filter fun r =>
              decide (r.input_data.parser_type = pt)).map (·.status)).count
                st)))
      ((db.rows.filter fun r =>
        decide (r.input_data.parser_type = pt)).map (·.status)).dedup
      = ((db.rows.filter fun r =>
        decide (r.input_data.parser_type = pt)).map (·.status)).dedup.count
          s := rfl
  rw [hcount, List.count_dedup]
  have hmem : (s ∈ (db.rows.filter fun r =>
        decide (r.input_data.parser_type = pt)).map (·.status))
      ↔ ∃ r ∈ db.rows, r.input_data.parser_type = pt ∧ r.status = s := by
    rw [List.mem_map]
    constructor
    · rintro ⟨a, ha, hst⟩
      rw [List.mem_filter] at ha
      exact ⟨a, ha.1, by simpa using ha.2, hst⟩
    · rintro ⟨a, ha, hpt, hst⟩
      exact ⟨a, List.mem_filter.mpr ⟨ha, by simpa using hpt⟩, hst⟩
  simp [hmem]

/-- A type's counts sum to the number of rows of that type. -/
lemma typeTriples_sum (db : DB) (pt : ParserTypes) :
    ((typeTriples db pt).map fun t => t.2.2).sum
      = (db.rows.filter fun r =>
          decide (r.input_data.parser_type = pt)).length := by
  unfold typeTriples groupCountByStatus
  rw [List.map_map, List.map_map]
  have h := List.sum_map_count_dedup_eq_length
    ((db.rows.filter fun r =>
      decide (r.input_data.parser_type = pt)).map (·.status))
  rw [List.length_map] at h
  exact h

/-- C3: `stat` yields, for each parser type in enumeration order, that
type's grouped triples concatenated; each (type, status) pair with at
least one matching row contributes exactly one triple, and none
otherwise; for each type the counts sum to the type's row total; and a
failure of any per-type sub-query propagates to the caller instead of a
partial result. -/
theorem stat_spec (db : DB) (fail : ParserTypes → Bool) (pt : ParserTypes)
    (s : RequestStatus) :
    ((∃ q, fail q = true) → stat db fail = .error ()) ∧
    (stat db (fun _ => false)
      = .ok (typeTriples db .VK_SIMPLE_DOWNLOAD
          ++ typeTriples db .VK_DOWNLOAD_AND_PARSED_POSTS)) ∧
    (∀ t ∈ typeTriples db pt, t.1 = pt) ∧
    (((typeTriples db pt).filter fun t => decide (t.2.1 = s)).length
      = if ∃ r ∈ db.rows, r.input_data.parser_type = pt ∧ r.status = s
        then 1 else 0) ∧
    (((typeTriples db pt).map fun t => t.2.2).sum
      = (db.rows.filter fun r =>
          decide (r.input_data.parser_type = pt)).length) :=
  ⟨stat_error db fail, stat_eq_ok db, typeTriples_fst db pt,
   typeTriples_filter_status db pt s, typeTriples_sum db pt⟩

/-- Witness for C3 on the two-row table: a driver failure fails the whole
call, and the one PENDING SimpleDownload row yields exactly one triple. -/
theorem stat_spec_witness :
    stat dbTwo (fun _ => true) = .error () ∧
    ((typeTriples dbTwo .VK_SIMPLE_DOWNLOAD).filter
        fun t => decide (t.2.1 = .PENDING)).length = 1 := by
  refine ⟨(stat_spec dbTwo (fun _ => true) .VK_SIMPLE_DOWNLOAD .PENDING).1
      ⟨.VK_SIMPLE_DOWNLOAD, rfl⟩, ?_⟩
  rw [(stat_spec dbTwo (fun _ => true) .VK_SIMPLE_DOWNLOAD .PENDING).2.2.2.1]
  decide

end VkStore
